import Mathlib

/-
Shallow embedding of the data-access and authorization core of the daptin
repository (server/id/id.go and
server/resource/action_generate_password_reset_verify_flow.go), together
with theorems settling the specification claims about it.

Database round-trips, the distributed cache and randomness are modelled as
explicit oracle parameters; machine int64 values that carry permission bit
masks are modelled as Nat (the spec fixes them to non-negative 21-bit
values); fallible operations return Option.
-/

namespace Daptin

/-! ## DaptinReferenceId (id.go lines 10-55) -/

/-- The 16-byte opaque external reference id (type DaptinReferenceId in
id.go): a byte list of length exactly 16. -/
def DaptinReferenceId := { l : List Nat // l.length = 16 }

instance : DecidableEq DaptinReferenceId :=
  fun a b => decidable_of_iff (a.val = b.val) Subtype.ext_iff.symm

/-- MarshalBinary returns the 16 bytes of the id; its error result is
always nil in the source, so the model returns the bytes alone. -/
def marshalBinary (d : DaptinReferenceId) : List Nat := d.val

/-- UnmarshalBinary on a pointer receiver: when the input length is not 16
it returns an error and leaves the receiver untouched, otherwise it copies
the 16 input bytes into the receiver.  The model returns the new receiver
value paired with the optional error message. -/
def unmarshalBinary (d : DaptinReferenceId) (data : List Nat) :
    DaptinReferenceId × Option String :=
  if h : data.length = 16 then
    (⟨data, h⟩, none)
  else
    (d, some "invalid data length: expected exactly 16 bytes")

/-! ## Permission bits

Modelled from the spec: the auth package is not part of the sources given
(only its callers in id.go are), so the bit layout comes from the spec's
section 6 table: three 7-bit fields guest/user/group, each packing
Peek, Read, Create, Update, Delete, Execute, Refer in bit order. -/

def GuestPeek : Nat := 1
def GuestRead : Nat := 2
def GuestCreate : Nat := 4
def GuestUpdate : Nat := 8
def GuestDelete : Nat := 16
def GuestExecute : Nat := 32
def GuestRefer : Nat := 64
def UserPeek : Nat := 128
def UserRead : Nat := 256
def UserCreate : Nat := 512
def UserUpdate : Nat := 1024
def UserDelete : Nat := 2048
def UserExecute : Nat := 4096
def UserRefer : Nat := 8192
def GroupPeek : Nat := 16384
def GroupRead : Nat := 32768
def GroupCreate : Nat := 65536
def GroupUpdate : Nat := 131072
def GroupDelete : Nat := 262144
def GroupExecute : Nat := 524288
def GroupRefer : Nat := 1048576

/-- Modelled from the spec: UserCRUD is UserRead, UserCreate, UserUpdate
and UserDelete combined. -/
def UserCRUD : Nat := UserRead ||| UserCreate ||| UserUpdate ||| UserDelete

/-- Modelled from the spec: GroupCRUD is GroupRead, GroupCreate,
GroupUpdate and GroupDelete combined. -/
def GroupCRUD : Nat := GroupRead ||| GroupCreate ||| GroupUpdate ||| GroupDelete

/-- Modelled from the spec: DEFAULT_PERMISSION is owner full plus group
read (auth.DEFAULT_PERMISSION, not among the given sources). -/
def DEFAULT_PERMISSION : Nat :=
  UserPeek ||| UserCRUD ||| UserExecute ||| UserRefer ||| GroupRead

/-- One entry of the group list of a PermissionInstance
(auth.GroupPermission in the source). -/
structure GroupPermission where
  groupReferenceId : String
  objectReferenceId : String
  relationReferenceId : String
  permission : Nat
deriving DecidableEq, Repr

/-- PermissionInstance: owner reference, group entries, and the row's own
bit mask.  The Go zero value is empty owner, nil group list, zero bits. -/
structure PermissionInstance where
  userId : String
  userGroupId : List GroupPermission
  permission : Nat
deriving DecidableEq, Repr

/-- The seven capabilities of each 7-bit permission field. -/
inductive Capability where
  | peek | read | create | update | delete | execute | refer
deriving DecidableEq, Repr

/-- Bit offset of a capability inside one 7-bit field. -/
def Capability.bit : Capability → Nat
  | .peek => 0
  | .read => 1
  | .create => 2
  | .update => 3
  | .delete => 4
  | .execute => 5
  | .refer => 6

/-- Whether the guest field of a mask permits a capability. -/
def permitsGuest (mask : Nat) (c : Capability) : Bool := mask.testBit c.bit

/-- Whether the user (owner) field of a mask permits a capability. -/
def permitsUser (mask : Nat) (c : Capability) : Bool := mask.testBit (c.bit + 7)

/-- Whether the group field of a mask permits a capability. -/
def permitsGroup (mask : Nat) (c : Capability) : Bool := mask.testBit (c.bit + 14)

/-- Modelled from the spec: AccessGate's allow (the auth package is not
among the given sources).  A caller (userRefId, groupRefIds) is allowed a
capability iff the caller is the owner and the owner bits permit it, or
the caller shares a group with the instance's group list and that group
entry's bits permit it, or the guest bits permit it. -/
def allow (p : PermissionInstance) (userRefId : String)
    (groups : List GroupPermission) (c : Capability) : Bool :=
  (p.userId = userRefId && permitsUser p.permission c)
  || (groups.any fun g => p.userGroupId.any fun g2 =>
        g2.groupReferenceId = g.groupReferenceId && permitsGroup g2.permission c)
  || permitsGuest p.permission c

/-- Modelled from the spec: CanExecute is the 2-arg predicate on a
PermissionInstance, deciding Execute for a caller. -/
def canExecute (p : PermissionInstance) (userRefId : String)
    (groups : List GroupPermission) : Bool :=
  allow p userRefId groups .execute

/-! ## GetObjectPermissionByWhereClause and IsUserActionAllowed
(id.go lines 89-114 and 575-638) -/

/-- One row as seen by GetObjectPermissionByWhereClause: the where-clause
columns, the user_account_id column (NULL allowed), the permission mask
and the integer primary key. -/
structure PermRow where
  colVals : List (String × String)
  userAccountId : Option Int
  permission : Nat
  id : Int
deriving DecidableEq, Repr

/-- The database and cache context that GetObjectPermissionByWhereClause
reads: tables of permission rows, the id-to-reference resolver for the
owner column, the object-groups join query, and the olric cache for
permission instances (a get result oracle; nil cache and miss coincide). -/
structure PermDb where
  tables : List (String × List PermRow)
  idToRef : String → Int → Option String
  groupsOf : String → Int → List GroupPermission
  cachedPerm : String → Option PermissionInstance

/-- GetObjectPermissionByWhereClause (id.go 575-638): on a cache hit the
cached instance is returned; otherwise a single row of objectType with
colName = colValue is scanned; a missing row yields the zero instance; a
present row yields owner reference (when user_account_id is set and
resolvable), the object's group list, and the row's permission mask. -/
def getObjectPermissionByWhereClause (db : PermDb)
    (objectType colName colValue : String) : PermissionInstance :=
  match db.cachedPerm (objectType ++ "_" ++ colName ++ "_" ++ colValue) with
  | some p => p
  | none =>
    match ((db.tables.lookup objectType).getD []).find?
        (fun r => r.colVals.lookup colName = some colValue) with
    | none => ⟨"", [], 0⟩
    | some m =>
      let owner := match m.userAccountId with
        | some uid => (db.idToRef "user_account" uid).getD ""
        | none => ""
      ⟨owner, db.groupsOf objectType m.id, m.permission⟩

/-- IsUserActionAllowed (id.go 89-100): loads the type-level permission
from world by table_name and the action-level permission from action by
action_name, and requires CanExecute on both. -/
def isUserActionAllowed (db : PermDb) (userReferenceId : String)
    (userGroups : List GroupPermission) (typeName actionName : String) : Bool :=
  let permission := getObjectPermissionByWhereClause db "world" "table_name" typeName
  let actionPermission := getObjectPermissionByWhereClause db "action" "action_name" actionName
  let canExecuteOnType := canExecute permission userReferenceId userGroups
  let canExecuteAction := canExecute actionPermission userReferenceId userGroups
  canExecuteOnType && canExecuteAction

/-! ## AdminBootstrap (id.go lines 1044-1053 and 1165-1280) -/

/-- A row of a generic crud table, restricted to the columns BecomeAdmin
touches: the owner column and the permission mask. -/
structure CrudTableRow where
  userAccountId : Option Int
  permission : Nat
deriving DecidableEq, Repr

/-- A crud table as BecomeAdmin sees it: its name, whether its model has
the user_account_id column, and its rows. -/
structure CrudTable where
  name : String
  hasUserAccountColumn : Bool
  rows : List CrudTableRow
deriving DecidableEq, Repr

/-- A row of the user_account to usergroup link table
user_account_user_account_id_has_usergroup_usergroup_id. -/
structure MembershipRow where
  userAccountId : Int
  usergroupId : Int
  permission : Nat
  referenceId : String
deriving DecidableEq, Repr

/-- A row of the world table, restricted to what BecomeAdmin updates. -/
structure WorldRow where
  tableName : String
  permission : Nat
  defaultPermission : Nat
deriving DecidableEq, Repr

/-- A row of the action table, restricted to what BecomeAdmin updates. -/
structure ActionTableRow where
  actionName : String
  permission : Nat
deriving DecidableEq, Repr

/-- The database state AdminBootstrap reads and writes. -/
structure AdminState where
  cruds : List CrudTable
  membership : List MembershipRow
  world : List WorldRow
  actions : List ActionTableRow
  administratorsGroupId : Int
deriving DecidableEq, Repr

/-- Modelled from the spec: GetAdminReferenceId is not among the given
sources; per the spec an administrator exists iff the administrators
group's membership table has a row, so the function returns the reference
ids of the membership rows of the administrators group. -/
def getAdminReferenceId (s : AdminState) : List String :=
  (s.membership.filter fun m => m.usergroupId = s.administratorsGroupId).map
    MembershipRow.referenceId

/-- CanBecomeAdmin (id.go 1044-1053): true when GetAdminReferenceId
yields nothing. -/
def canBecomeAdmin (s : AdminState) : Bool :=
  (getAdminReferenceId s).isEmpty

/-- The permission every action row is set to by BecomeAdmin
(id.go line 1253). -/
def adminActionPermission : Nat :=
  UserRead ||| UserExecute ||| GroupCRUD ||| GroupExecute ||| GroupRefer

/-- The permission the signin action row ends with after BecomeAdmin
(id.go line 1265). -/
def adminSigninActionPermission : Nat :=
  GuestPeek ||| GuestExecute ||| UserRead ||| UserExecute ||| GroupRead ||| GroupExecute

/-- The permissions BecomeAdmin writes on audit world rows
(id.go lines 1237-1238). -/
def adminAuditWorldPermission : Nat := UserCreate ||| GroupCreate

def adminAuditWorldDefaultPermission : Nat := UserRead ||| GroupRead

/-- SQL LIKE pattern percent-underscore-audit: any prefix, one arbitrary
character, then the literal text audit. -/
def likeAudit (name : String) : Bool :=
  name.endsWith "audit" && 6 ≤ name.length

/-- BecomeAdmin (id.go 1165-1280).  Refuses when CanBecomeAdmin is false.
Otherwise: every crud table other than the user-group link table that has
the owner column gets all rows re-owned to userId with
DEFAULT_PERMISSION; the user is inserted into the administrators group
with a fresh reference id; world rows not matching the audit pattern get
DEFAULT_PERMISSION for permission and default_permission, audit rows get
the audit values; every action row gets adminActionPermission and then
the signin action row gets adminSigninActionPermission.  The fresh uuid
is passed in as newRefId; database errors are outside the model. -/
def becomeAdmin (userId : Int) (newRefId : String) (s : AdminState) :
    Bool × AdminState :=
  if ¬ canBecomeAdmin s then (false, s)
  else
    let cruds1 := s.cruds.map fun c =>
      if c.name = "user_account_user_account_id_has_usergroup_usergroup_id" then c
      else if c.hasUserAccountColumn then
        { c with rows := c.rows.map fun r =>
            { r with userAccountId := some userId, permission := DEFAULT_PERMISSION } }
      else c
    let membership1 := s.membership ++
      [⟨userId, s.administratorsGroupId, DEFAULT_PERMISSION, newRefId⟩]
    let world1 := s.world.map fun w =>
      if ¬ likeAudit w.tableName then
        { w with permission := DEFAULT_PERMISSION,
                 defaultPermission := DEFAULT_PERMISSION }
      else w
    let world2 := world1.map fun w =>
      if likeAudit w.tableName then
        { w with permission := adminAuditWorldPermission,
                 defaultPermission := adminAuditWorldDefaultPermission }
      else w
    let actions1 := s.actions.map fun a =>
      { a with permission := adminActionPermission }
    let actions2 := actions1.map fun a =>
      if a.actionName = "signin" then
        { a with permission := adminSigninActionPermission }
      else a
    (true, { cruds := cruds1, membership := membership1, world := world2,
             actions := actions2,
             administratorsGroupId := s.administratorsGroupId })

/-! ## GetRowPermission (id.go lines 1282-1490) -/

/-- A cell value in a row map: the dynamic types GetRowPermission
inspects (string, int64, or nil). -/
inductive RVal where
  | str (s : String)
  | int (i : Int)
  | null
deriving DecidableEq, Repr

/-- The Go type assertion v.(string) with discarded ok flag: empty string
for anything that is not a string. -/
def RVal.asString : RVal → String
  | .str s => s
  | _ => ""

/-- The external calls GetRowPermission can make, as oracles: the
reference-to-object-column lookup used to resolve the owner, the
relation-graph HasMany(usergroup) test, the object-usergroup join query,
the permission lookup by reference id, and the usergroup model's default
permission. -/
structure RowEnv where
  refToColumn : String → String → String → Option String
  hasManyUsergroup : String → Bool
  groupsByWhere : String → String → String → List GroupPermission
  objectPermissionByRef : String → String → PermissionInstance
  usergroupDefaultPermission : Nat

/-- The synthetic guest-read group entry for file-backed and none-typed
rows (id.go 1310-1317). -/
def guestReadEntry : GroupPermission := ⟨"", "", "", GuestRead⟩

/-- The row map __type value. -/
def rowTypeOf (row : List (String × RVal)) : String :=
  ((row.lookup "__type").getD .null).asString

/-- GetRowPermission (id.go 1282-1377), returning the instance together
with a flag recording whether the object-usergroup join query
(GetObjectUserGroupsByWhere) was issued.  The row's reference_id (or id
as fallback) names the row; owner resolution happens for all non
usergroup types; file-dot and none types return the synthetic guest-read
group list at once; otherwise the group list comes from the join query,
or is self-referential for usergroup rows; finally the permission mask is
read from the row (int64, float64 or numeric string) or looked up by
reference id. -/
def getRowPermission (env : RowEnv) (row : List (String × RVal)) :
    PermissionInstance × Bool :=
  let refId : RVal := match row.lookup "reference_id" with
    | some v => v
    | none => (row.lookup "id").getD .null
  let rowType := rowTypeOf row
  let userId :=
    if rowType ≠ "usergroup" then
      match row.lookup "user_account_id" with
      | some (.str s) => s
      | some (.int _) => ""
      | _ => (env.refToColumn rowType refId.asString "user_account_id").getD ""
    else ""
  let hasLoc := (rowType.splitOn "_has_").length ≠ 1
  if rowType.startsWith "file." || rowType = "none" then
    (⟨userId, [guestReadEntry], 0⟩, false)
  else
    let groupsAndFlag :=
      if ¬ hasLoc ∧ env.hasManyUsergroup rowType then
        (env.groupsByWhere rowType "reference_id" refId.asString, true)
      else if rowType = "usergroup" then
        let originalGroupIdStr := match row.lookup "reference_id" with
          | some (.str s) => s
          | _ => refId.asString
        ([(⟨originalGroupIdStr, refId.asString, refId.asString,
            env.usergroupDefaultPermission⟩ : GroupPermission)], false)
      else ([], false)
    let permission := match row.lookup "permission" with
      | some (.int i) => i.toNat
      | some (.str s) => (s.toInt?.getD 0).toNat
      | _ => (env.objectPermissionByRef rowType refId.asString).permission
    (⟨userId, groupsAndFlag.1, permission⟩, groupsAndFlag.2)

/-- GetRowPermissionWithTransaction (id.go 1379-1490): like
GetRowPermission but consults the row-permission cache first and, on the
paths that fall through to the end, stores the computed instance back in
the cache.  The result carries the group-query flag and the cache-put
flag; the early file-dot and none return skips the put. -/
def getRowPermissionWithTransaction (env : RowEnv)
    (cache : Option PermissionInstance) (row : List (String × RVal)) :
    PermissionInstance × Bool × Bool :=
  match cache with
  | some v => (v, false, false)
  | none =>
    let refId : RVal := match row.lookup "reference_id" with
      | some v => v
      | none => (row.lookup "id").getD .null
    let rowType := rowTypeOf row
    let userId :=
      if rowType ≠ "usergroup" then
        match row.lookup "user_account_id" with
        | some (.str s) => s
        | some (.int _) => ""
        | _ => (env.refToColumn rowType refId.asString "user_account_id").getD ""
      else ""
    let hasLoc := (rowType.splitOn "_has_").length ≠ 1
    if rowType.startsWith "file." || rowType = "none" then
      (⟨userId, [guestReadEntry], 0⟩, false, false)
    else
      let groupsAndFlag :=
        if ¬ hasLoc ∧ env.hasManyUsergroup rowType then
          (env.groupsByWhere rowType "reference_id" refId.asString, true)
        else if rowType = "usergroup" then
          let originalGroupIdStr := match row.lookup "reference_id" with
            | some (.str s) => s
            | _ => refId.asString
          ([(⟨originalGroupIdStr, refId.asString, refId.asString,
              env.usergroupDefaultPermission⟩ : GroupPermission)], false)
        else ([], false)
      let permission := match row.lookup "permission" with
        | some (.int i) => i.toNat
        | some (.str s) => (s.toInt?.getD 0).toNat
        | _ => (env.objectPermissionByRef rowType refId.asString).permission
      (⟨userId, groupsAndFlag.1, permission⟩, groupsAndFlag.2, true)

/-! ## IdentityResolver (id.go lines 2946-3103) -/

/-- A row restricted to the columns of the id to reference id mapping. -/
structure IdRow where
  id : Int
  ref : String
deriving DecidableEq, Repr

/-- The single-row SELECT reference_id FROM table WHERE id = ?. -/
def lookupRefById (table : List IdRow) (id : Int) : Option String :=
  (table.find? fun r => r.id = id).map IdRow.ref

/-- The single-row SELECT id FROM table WHERE reference_id = ?. -/
def lookupIdByRef (table : List IdRow) (ref : String) : Option Int :=
  (table.find? fun r => r.ref = ref).map IdRow.id

/-- One cache PutIfEx call, with its key and TTL in seconds. -/
structure CachePut where
  key : String
  ttlSeconds : Nat
deriving DecidableEq, Repr

/-- The cache key of the id-to-reference namespace. -/
def itrKey (typeName : String) (id : Int) : String :=
  "itr-" ++ typeName ++ "-" ++ toString id

/-- The cache key of the reference-to-id namespace. -/
def ritiKey (typeName : String) (ref : String) : String :=
  "riti-" ++ typeName ++ "-" ++ ref

/-- GetIdToReferenceId (id.go 2946-2982): cache hit returns the cached
string; otherwise the single-row SELECT runs and the result is put under
the itr key with a TTL of 1 minute (the put happens whether or not the
scan found a row). -/
def getIdToReferenceId (cacheItr : String → Option String) (table : List IdRow)
    (typeName : String) (id : Int) : Option String × List CachePut :=
  let k := itrKey typeName id
  match cacheItr k with
  | some v => (some v, [])
  | none => (lookupRefById table id, [⟨k, 60⟩])

/-- GetIdToReferenceIdWithTransaction (id.go 2985-3021): same lookup
inside the caller's transaction, but the put uses a TTL of 5 minutes. -/
def getIdToReferenceIdWithTransaction (cacheItr : String → Option String)
    (table : List IdRow) (typeName : String) (id : Int) :
    Option String × List CachePut :=
  let k := itrKey typeName id
  match cacheItr k with
  | some v => (some v, [])
  | none => (lookupRefById table id, [⟨k, 300⟩])

/-- GetReferenceIdToId (id.go 3024-3062): cache hit returns the cached
id; otherwise the single-row SELECT runs and the result is put under the
riti key with a TTL of 5 minutes (again put regardless of scan error). -/
def getReferenceIdToId (cacheRiti : String → Option Int) (table : List IdRow)
    (typeName : String) (referenceId : String) : Option Int × List CachePut :=
  let k := ritiKey typeName referenceId
  match cacheRiti k with
  | some v => (some v, [])
  | none => (lookupIdByRef table referenceId, [⟨k, 300⟩])

/-- GetReferenceIdToIdWithTransaction (id.go 3065-3103): a cached zero is
treated as a miss, and the put happens only on a successful scan, with a
TTL of 1 hour. -/
def getReferenceIdToIdWithTransaction (cacheRiti : String → Option Int)
    (table : List IdRow) (typeName : String) (referenceId : String) :
    Option Int × List CachePut :=
  let k := ritiKey typeName referenceId
  let dbRead : Option Int × List CachePut :=
    match lookupIdByRef table referenceId with
    | some i => (some i, [⟨k, 3600⟩])
    | none => (none, [])
  match cacheRiti k with
  | some v => if v ≠ 0 then (some v, []) else dbRead
  | none => dbRead

/-! ## RowLoader relation inclusion (id.go lines 3499-3593) -/

/-- A row of the many-to-many join table as the inclusion JOIN query sees
it: the subject row's reference id, the object row's integer id, and the
join row's created_at (as a comparable timestamp). -/
structure JoinRow where
  subjectRef : String
  objectId : Int
  createdAt : Int
deriving DecidableEq, Repr

/-- A related object row, restricted to the two columns the inclusion
step uses. -/
structure ObjRow where
  id : Int
  referenceId : String
deriving DecidableEq, Repr

/-- The comparator of ORDER BY join.created_at DESC. -/
def createdAtDescRel (a b : JoinRow) : Prop := b.createdAt ≤ a.createdAt

instance : DecidableRel createdAtDescRel :=
  fun a b => inferInstanceAs (Decidable (b.createdAt ≤ a.createdAt))

instance : IsTotal JoinRow createdAtDescRel :=
  ⟨fun a b => le_total b.createdAt a.createdAt⟩

instance : IsTrans JoinRow createdAtDescRel :=
  ⟨fun _ _ _ h1 h2 => le_trans h2 h1⟩

/-- The join rows selected for one parent row: the join table filtered to
the parent's reference id and sorted by created_at descending. -/
def hasManySelectedJoinRows (joinRows : List JoinRow) (parentRef : String) :
    List JoinRow :=
  List.insertionSort createdAtDescRel (joinRows.filter fun j => j.subjectRef = parentRef)

/-- The object ids collected by the inclusion JOIN query for one parent
row and one has_many or has_many_and_belongs_to_many relation
(id.go 3519-3569): the selected join rows' object ids, LIMIT 50. -/
def hasManyIncludedObjectIds (joinRows : List JoinRow) (parentRef : String) :
    List Int :=
  ((hasManySelectedJoinRows joinRows parentRef).map JoinRow.objectId).take 50

/-- A declared relation as the inclusion loop sees it: its kind and the
two names the include set is tested against. -/
structure RelationModel where
  relationKind : String
  objectName : String
  subjectName : String
deriving DecidableEq, Repr

/-- The include-set gate of the relation loop (id.go 3501-3503). -/
def relationIncluded (includedRelations : List String) (rel : RelationModel) : Bool :=
  includedRelations.contains rel.objectName
  || includedRelations.contains rel.subjectName

/-- The body of the subject-side has_many and
has_many_and_belongs_to_many case (id.go 3515-3593): collect the object
ids; when none were found the relation is skipped; otherwise the object
table is loaded WHERE id IN ids, the relation field becomes those
objects' reference ids, and the objects are appended to the local
includes. -/
def loadHasManyRelation (joinRows : List JoinRow) (objectTable : List ObjRow)
    (parentRef : String) : Option (List String × List ObjRow) :=
  let ids := hasManyIncludedObjectIds joinRows parentRef
  if ids.isEmpty then none
  else
    let includes1 := objectTable.filter fun o => ids.contains o.id
    some (includes1.map ObjRow.referenceId, includes1)

/-- One pass of the relation loop for one parent row and one declared
relation on the subject side: nothing happens unless the relation is in
the include set and is of a has-many kind. -/
def processHasManyRelation (includedRelations : List String) (rel : RelationModel)
    (joinRows : List JoinRow) (objectTable : List ObjRow) (parentRef : String) :
    Option (List String × List ObjRow) :=
  if ¬ relationIncluded includedRelations rel then none
  else if rel.relationKind = "has_many"
      ∨ rel.relationKind = "has_many_and_belongs_to_many" then
    loadHasManyRelation joinRows objectTable parentRef
  else none

/-! ## GetRandomRow (id.go lines 1589-1637) -/

/-- The random-row selector function of the builder dialect: RAND for
mysql, RANDOM for every other driver (id.go 1591-1595). -/
def randomFunc (driverName : String) : String :=
  if driverName = "mysql" then "RAND() * " else "RANDOM() * "

/-- The dialect-independent head of the random-row SQL. -/
def randomRowSqlHead (typeName : String) : String :=
  "SELECT * FROM " ++ typeName ++ " WHERE id >= "

/-- The dialect-independent tail of the random-row SQL. -/
def randomRowSqlTail (typeName : String) (count : Nat) : String :=
  " ( SELECT MAX(id) FROM " ++ typeName ++ " ) LIMIT " ++ toString count

/-- The SQL text GetRandomRow builds (id.go 1597-1601): the random
function applied to the subquery for MAX(id) bounds the id from below,
with LIMIT count. -/
def getRandomRowSql (driverName typeName : String) (count : Nat) : String :=
  randomRowSqlHead typeName ++ randomFunc driverName ++ randomRowSqlTail typeName count

/-- The result-set semantics of GetRandomRow: the rows whose id is at
least the threshold (the database's evaluation of the random function
times MAX(id), an oracle here), limited to count. -/
def getRandomRow (table : List IdRow) (threshold : Int) (count : Nat) :
    List IdRow :=
  (table.filter fun r => threshold ≤ r.id).take count

/-! ## password.reset.verify action performer
(action_generate_password_reset_verify_flow.go lines 23-76) -/

/-- One action response: NewActionResponse(responseType, attributes). -/
structure ActionResponse where
  responseType : String
  attrs : List (String × String)
deriving DecidableEq, Repr

/-- The outcomes of the external calls DoAction makes, as an input
oracle: whether the user lookup by email errored, how many matching user
accounts exist, the base64 decode result of the token, and whether
jwt.Parse succeeded with a valid token. -/
structure ResetVerifyInput where
  lookupFailed : Bool
  existingUsersCount : Nat
  tokenDecoded : Option String
  jwtValid : Bool
deriving DecidableEq, Repr

/-- DoAction of generatePasswordResetVerifyActionPerformer (lines 23-76):
the responder is always nil and the error list always nil; a single
client.notify response reports no-such-account, invalid token, expired
token, or success. -/
def passwordResetVerifyDoAction (input : ResetVerifyInput) :
    Option Unit × List ActionResponse × List String :=
  let responses : List ActionResponse :=
    if input.lookupFailed || input.existingUsersCount < 1 then
      [⟨"client.notify",
        [("type", "error"), ("message", "No Such account"), ("title", "Failed")]⟩]
    else
      match input.tokenDecoded with
      | none =>
        [⟨"client.notify",
          [("type", "error"), ("message", "Invalid token"), ("title", "Failed")]⟩]
      | some _ =>
        if ¬ input.jwtValid then
          [⟨"client.notify",
            [("message", "Token has expired"), ("title", "Failed"),
             ("type", "failed")]⟩]
        else
          [⟨"client.notify",
            [("message", "Logged in"), ("title", "Success"),
             ("type", "success")]⟩]
  (none, responses, [])

/-! ## Concrete sample inputs used by witnesses -/

/-- Sample reference id used to witness claim C9. -/
def sampleRefId : DaptinReferenceId := ⟨List.replicate 16 0, by decide⟩

/-- Environment with inert oracles used to witness claim C4. -/
def sampleRowEnv : RowEnv :=
  ⟨fun _ _ _ => none, fun _ => false, fun _ _ _ => [], fun _ _ => ⟨"", [], 0⟩, 0⟩

/-- Initial state with no administrator, used to witness claim C2. -/
def adminS0 : AdminState := ⟨[⟨"blog", true, [⟨none, 0⟩]⟩], [], [], [], 7⟩

/-- The state after the bootstrap, used to witness claim C2. -/
def adminS1 : AdminState := (becomeAdmin 1 "ref-1" adminS0).2

/-- State with a lone signin action used for claim C5. -/
def c5State : AdminState := ⟨[], [], [], [⟨"signin", 0⟩], 7⟩

/-- The state c5State becomes after the bootstrap. -/
def c5StateAfter : AdminState := (becomeAdmin 1 "ref-1" c5State).2

/-- State with a signin and a publish action, witnessing claim C5. -/
def c5WitnessState : AdminState :=
  ⟨[], [], [], [⟨"signin", 0⟩, ⟨"publish", 0⟩], 7⟩

/-- The state c5WitnessState becomes after the bootstrap. -/
def c5WitnessStateAfter : AdminState := (becomeAdmin 1 "ref-1" c5WitnessState).2

/-- The always-miss string-valued cache, used by witnesses. -/
def emptyStrCache : String → Option String := fun _ => none

/-- The always-miss int-valued cache, used by witnesses. -/
def emptyIntCache : String → Option Int := fun _ => none

/-- Sample id table used by the identity-resolver witnesses. -/
def c7Table : List IdRow := [⟨1, "a"⟩, ⟨2, "b"⟩]

/-- Sample join-table rows used by the relation-loader witness. -/
def c3Join : List JoinRow := [⟨"a1", 1, 5⟩, ⟨"a1", 2, 9⟩]

/-- Sample object rows used by the relation-loader witness. -/
def c3Obj : List ObjRow := [⟨1, "p1"⟩, ⟨2, "p2"⟩]

/-! ## Claim theorems -/

/-- C1: IsUserActionAllowed returns true if and only if the type-level
permission loaded from world by table_name grants Execute to the caller
and the action-level permission loaded from action by action_name
independently grants Execute to the caller; so if either CanExecute check
is false the result is false. -/
theorem claim_C1 (db : PermDb) (userReferenceId : String)
    (userGroups : List GroupPermission) (typeName actionName : String) :
    isUserActionAllowed db userReferenceId userGroups typeName actionName = true
      ↔ (canExecute (getObjectPermissionByWhereClause db "world" "table_name" typeName)
            userReferenceId userGroups = true
          ∧ canExecute (getObjectPermissionByWhereClause db "action" "action_name" actionName)
            userReferenceId userGroups = true) := by
  simp [isUserActionAllowed, Bool.and_eq_true]

/-- C9: unmarshalling the result of MarshalBinary restores exactly the
original 16-byte DaptinReferenceId, and UnmarshalBinary errors, leaving
the receiver unchanged, exactly when the input length is not 16. -/
theorem claim_C9 (d e : DaptinReferenceId) (data : List Nat) :
    unmarshalBinary e (marshalBinary d) = (d, none)
    ∧ ((unmarshalBinary e data).2.isSome ↔ data.length ≠ 16)
    ∧ (data.length ≠ 16 → (unmarshalBinary e data).1 = e) := by
  refine ⟨?_, ?_, ?_⟩
  · simp only [unmarshalBinary, marshalBinary, d.property, dite_true]
    exact Prod.ext (Subtype.ext rfl) rfl
  · by_cases h : data.length = 16 <;> simp [unmarshalBinary, h]
  · intro h
    simp [unmarshalBinary, h]

/-- Witness for claim C9 at a concrete id and a concrete 2-byte input. -/
theorem claim_C9_witness :
    unmarshalBinary sampleRefId (marshalBinary sampleRefId) = (sampleRefId, none)
    ∧ ((unmarshalBinary sampleRefId [1, 2]).2.isSome ↔ ([1, 2] : List Nat).length ≠ 16)
    ∧ (([1, 2] : List Nat).length ≠ 16 →
        (unmarshalBinary sampleRefId [1, 2]).1 = sampleRefId) :=
  claim_C9 sampleRefId sampleRefId [1, 2]

/-- C10: DoAction of password.reset.verify always returns a nil responder
and a nil error list, and exactly one client.notify action response, in
every case. -/
theorem claim_C10 (input : ResetVerifyInput) :
    (passwordResetVerifyDoAction input).1 = none
    ∧ (passwordResetVerifyDoAction input).2.2 = []
    ∧ (passwordResetVerifyDoAction input).2.1.map ActionResponse.responseType
        = ["client.notify"] := by
  obtain ⟨lf, c, td, jv⟩ := input
  refine ⟨rfl, rfl, ?_⟩
  cases lf <;> cases td <;> cases jv <;>
    simp [passwordResetVerifyDoAction] <;> split <;> simp

/-- C8: GetRandomRow returns at most count rows, each satisfying the
predicate id at-least threshold where the threshold is the random
function times the maximal id, the random function is RANDOM for every
driver except mysql where it is RAND, and the built SQL depends on the
dialect only through that random function. -/
theorem claim_C8 (driverName typeName : String) (count : Nat)
    (table : List IdRow) (threshold : Int) (h : driverName ≠ "mysql") :
    (getRandomRow table threshold count).length ≤ count
    ∧ (∀ r ∈ getRandomRow table threshold count, threshold ≤ r.id)
    ∧ randomFunc "mysql" = "RAND() * "
    ∧ randomFunc driverName = "RANDOM() * "
    ∧ getRandomRowSql driverName typeName count
        = randomRowSqlHead typeName ++ randomFunc driverName
          ++ randomRowSqlTail typeName count := by
  refine ⟨List.length_take_le _ _, ?_, rfl, ?_, rfl⟩
  · intro r hr
    have hr2 : r ∈ table.filter fun r => threshold ≤ r.id :=
      (List.take_sublist _ _).mem hr
    simpa using (List.mem_filter.mp hr2).2
  · simp [randomFunc, h]

/-- Witness for claim C8 with the sqlite3 driver, two rows and count 1. -/
theorem claim_C8_witness :
    ("sqlite3" : String) ≠ "mysql"
    ∧ ((getRandomRow [⟨1, "a"⟩, ⟨2, "b"⟩] 2 1).length ≤ 1
      ∧ (∀ r ∈ getRandomRow [⟨1, "a"⟩, ⟨2, "b"⟩] 2 1, (2 : Int) ≤ r.id)
      ∧ randomFunc "mysql" = "RAND() * "
      ∧ randomFunc "sqlite3" = "RANDOM() * "
      ∧ getRandomRowSql "sqlite3" "world" 1
          = randomRowSqlHead "world" ++ randomFunc "sqlite3"
            ++ randomRowSqlTail "world" 1) :=
  ⟨by decide, claim_C8 "sqlite3" "world" 1 [⟨1, "a"⟩, ⟨2, "b"⟩] 2 (by decide)⟩

/-- C4: for every row map whose __type begins with file-dot or equals
none, GetRowPermission and its transactional variant (on a cache miss,
the only reachable case for such types since the transactional variant
never stores them) return a PermissionInstance whose group list is
exactly one entry with empty group, object and relation references and
GuestRead bits, without issuing the group resolution query and without a
cache put. -/
theorem claim_C4 (env : RowEnv) (row : List (String × RVal))
    (h : (rowTypeOf row).startsWith "file." ∨ rowTypeOf row = "none") :
    (getRowPermission env row).1.userGroupId
        = [(⟨"", "", "", GuestRead⟩ : GroupPermission)]
    ∧ (getRowPermission env row).2 = false
    ∧ (getRowPermissionWithTransaction env none row).1.userGroupId
        = [(⟨"", "", "", GuestRead⟩ : GroupPermission)]
    ∧ (getRowPermissionWithTransaction env none row).2 = (false, false) := by
  have hb : ((rowTypeOf row).startsWith "file."
      || decide (rowTypeOf row = "none")) = true := by
    rcases h with h | h <;> simp [h]
  refine ⟨?_, ?_, ?_, ?_⟩ <;>
    simp [getRowPermission, getRowPermissionWithTransaction, hb, guestReadEntry]

/-- Witness for claim C4 on a none-typed row. -/
theorem claim_C4_witness :
    ((rowTypeOf [("__type", RVal.str "none")]).startsWith "file."
      ∨ rowTypeOf [("__type", RVal.str "none")] = "none")
    ∧ ((getRowPermission sampleRowEnv [("__type", RVal.str "none")]).1.userGroupId
        = [(⟨"", "", "", GuestRead⟩ : GroupPermission)]
      ∧ (getRowPermission sampleRowEnv [("__type", RVal.str "none")]).2 = false
      ∧ (getRowPermissionWithTransaction sampleRowEnv none
          [("__type", RVal.str "none")]).1.userGroupId
        = [(⟨"", "", "", GuestRead⟩ : GroupPermission)]
      ∧ (getRowPermissionWithTransaction sampleRowEnv none
          [("__type", RVal.str "none")]).2 = (false, false)) :=
  ⟨Or.inr (by decide),
    claim_C4 sampleRowEnv [("__type", RVal.str "none")] (Or.inr (by decide))⟩

/-- C2: once BecomeAdmin has succeeded, CanBecomeAdmin is false on the
resulting state and every further BecomeAdmin call returns false leaving
the state unchanged. -/
theorem claim_C2 (userId : Int) (newRefId : String) (s s2 : AdminState)
    (h : becomeAdmin userId newRefId s = (true, s2)) :
    canBecomeAdmin s2 = false
    ∧ ∀ u r, becomeAdmin u r s2 = (false, s2) := by
  have hfalse : canBecomeAdmin s2 = false := by
    unfold becomeAdmin at h
    split at h
    · simp at h
    · simp only [Prod.mk.injEq] at h
      obtain ⟨-, rfl⟩ := h
      simp [canBecomeAdmin, getAdminReferenceId, List.filter_append]
  exact ⟨hfalse, fun u r => by simp [becomeAdmin, canBecomeAdmin] at hfalse ⊢; simp [hfalse]⟩

/-- Witness for claim C2: a concrete successful bootstrap. -/
theorem claim_C2_witness :
    becomeAdmin 1 "ref-1" adminS0 = (true, adminS1)
    ∧ (canBecomeAdmin adminS1 = false
      ∧ ∀ u r, becomeAdmin u r adminS1 = (false, adminS1)) :=
  ⟨by decide, claim_C2 1 "ref-1" adminS0 adminS1 (by decide)⟩

/-- C5 counterexample: a successful BecomeAdmin leaves the signin action
with GuestPeek, GuestExecute, UserRead, UserExecute, GroupRead and
GroupExecute, which is not the base action permission extended by the two
guest bits: GroupCreate, GroupUpdate, GroupDelete and GroupRefer are
missing, so the claimed superset equation fails. -/
theorem claim_C5_counterexample :
    (becomeAdmin 1 "ref-1" c5State).1 = true
    ∧ c5StateAfter.actions = [⟨"signin", adminSigninActionPermission⟩]
    ∧ adminSigninActionPermission
        ≠ (adminActionPermission ||| GuestPeek ||| GuestExecute) := by
  refine ⟨by decide, by decide, by decide⟩

/-- C5 (amended): when BecomeAdmin succeeds it sets every action row's
permission to UserRead, UserExecute, GroupCRUD, GroupExecute and
GroupRefer, and then sets the signin action's permission to GuestPeek,
GuestExecute, UserRead, UserExecute, GroupRead and GroupExecute - adding
the two guest bits but dropping GroupCreate, GroupUpdate, GroupDelete and
GroupRefer, so the signin value is not a superset of the base value. -/
theorem claim_C5 (userId : Int) (newRefId : String) (s s2 : AdminState)
    (h : becomeAdmin userId newRefId s = (true, s2)) :
    ∀ a ∈ s2.actions,
      a.permission = if a.actionName = "signin"
        then adminSigninActionPermission else adminActionPermission := by
  unfold becomeAdmin at h
  split at h
  · simp at h
  · simp only [Prod.mk.injEq] at h
    obtain ⟨-, rfl⟩ := h
    intro a ha
    simp only [List.mem_map] at ha
    obtain ⟨b, ⟨c, hc, rfl⟩, rfl⟩ := ha
    by_cases hn : c.actionName = "signin" <;> simp [hn]

/-- Witness for claim C5 on a state with a signin and a publish action. -/
theorem claim_C5_witness :
    becomeAdmin 1 "ref-1" c5WitnessState = (true, c5WitnessStateAfter)
    ∧ ∀ a ∈ c5WitnessStateAfter.actions,
        a.permission = if a.actionName = "signin"
          then adminSigninActionPermission else adminActionPermission :=
  ⟨by decide, claim_C5 1 "ref-1" c5WitnessState c5WitnessStateAfter (by decide)⟩

/-- C6 counterexample: the with-transaction id-to-reference lookup puts
with a TTL of 5 minutes, not the claimed 1 minute, and the
with-transaction reference-to-id lookup puts with a TTL of 1 hour, not
the claimed 5 minutes. -/
theorem claim_C6_counterexample :
    (getIdToReferenceIdWithTransaction emptyStrCache c7Table "world" 1).2
        = [⟨itrKey "world" 1, 300⟩]
    ∧ (300 : Nat) ≠ 60
    ∧ (getReferenceIdToIdWithTransaction emptyIntCache c7Table "world" "a").2
        = [⟨ritiKey "world" "a", 3600⟩]
    ∧ (3600 : Nat) ≠ 300 := by
  refine ⟨by decide, by decide, by decide, by decide⟩

/-- C6 (amended): on a cache miss, values in the itr namespace are put
with a TTL of 1 minute by GetIdToReferenceId but 5 minutes by
GetIdToReferenceIdWithTransaction, and values in the riti namespace are
put with a TTL of 5 minutes by GetReferenceIdToId but 1 hour by
GetReferenceIdToIdWithTransaction, the latter only on a successful
scan. -/
theorem claim_C6 (cItr : String → Option String) (cRiti : String → Option Int)
    (table : List IdRow) (t : String) (i : Int) (r : String)
    (hitr : cItr (itrKey t i) = none) (hriti : cRiti (ritiKey t r) = none) :
    (getIdToReferenceId cItr table t i).2 = [⟨itrKey t i, 60⟩]
    ∧ (getIdToReferenceIdWithTransaction cItr table t i).2 = [⟨itrKey t i, 300⟩]
    ∧ (getReferenceIdToId cRiti table t r).2 = [⟨ritiKey t r, 300⟩]
    ∧ (getReferenceIdToIdWithTransaction cRiti table t r).2
        = if (lookupIdByRef table r).isSome then [⟨ritiKey t r, 3600⟩] else [] := by
  refine ⟨?_, ?_, ?_, ?_⟩
  · simp [getIdToReferenceId, hitr]
  · simp [getIdToReferenceIdWithTransaction, hitr]
  · simp [getReferenceIdToId, hriti]
  · cases hl : lookupIdByRef table r <;>
      simp [getReferenceIdToIdWithTransaction, hriti, hl]

/-- Witness for the amended claim C6 on empty caches and a present row. -/
theorem claim_C6_witness :
    emptyStrCache (itrKey "world" 1) = none
    ∧ emptyIntCache (ritiKey "world" "a") = none
    ∧ ((getIdToReferenceId emptyStrCache c7Table "world" 1).2
          = [⟨itrKey "world" 1, 60⟩]
      ∧ (getIdToReferenceIdWithTransaction emptyStrCache c7Table "world" 1).2
          = [⟨itrKey "world" 1, 300⟩]
      ∧ (getReferenceIdToId emptyIntCache c7Table "world" "a").2
          = [⟨ritiKey "world" "a", 300⟩]
      ∧ (getReferenceIdToIdWithTransaction emptyIntCache c7Table "world" "a").2
          = if (lookupIdByRef c7Table "a").isSome
            then [⟨ritiKey "world" "a", 3600⟩] else []) :=
  ⟨rfl, rfl, claim_C6 emptyStrCache emptyIntCache c7Table "world" 1 "a" rfl rfl⟩

/-- When the table's integer ids are pairwise distinct, the single-row
SELECT of reference_id by id finds exactly the present row's reference. -/
theorem lookupRefById_of_mem (table : List IdRow) (i : Int) (r : String)
    (hmem : (⟨i, r⟩ : IdRow) ∈ table) (hnd : (table.map IdRow.id).Nodup) :
    lookupRefById table i = some r := by
  induction table with
  | nil => cases hmem
  | cons hd tl ih =>
    simp only [List.map_cons, List.nodup_cons] at hnd
    rcases List.mem_cons.mp hmem with heq | hmemtl
    · rw [lookupRefById, List.find?_cons_of_pos _ (by simp [← heq])]
      simp [← heq]
    · have hi : i ∈ tl.map IdRow.id := List.mem_map.mpr ⟨⟨i, r⟩, hmemtl, rfl⟩
      have hne : ¬ hd.id = i := fun he => hnd.1 (he ▸ hi)
      rw [lookupRefById, List.find?_cons_of_neg _ (by simp [hne])]
      exact ih hmemtl hnd.2

/-- When the table's reference ids are pairwise distinct, the single-row
SELECT of id by reference_id finds exactly the present row's id. -/
theorem lookupIdByRef_of_mem (table : List IdRow) (i : Int) (r : String)
    (hmem : (⟨i, r⟩ : IdRow) ∈ table) (hnd : (table.map IdRow.ref).Nodup) :
    lookupIdByRef table r = some i := by
  induction table with
  | nil => cases hmem
  | cons hd tl ih =>
    simp only [List.map_cons, List.nodup_cons] at hnd
    rcases List.mem_cons.mp hmem with heq | hmemtl
    · rw [lookupIdByRef, List.find?_cons_of_pos _ (by simp [← heq])]
      simp [← heq]
    · have hi : r ∈ tl.map IdRow.ref := List.mem_map.mpr ⟨⟨i, r⟩, hmemtl, rfl⟩
      have hne : ¬ hd.ref = r := fun he => hnd.1 (he ▸ hi)
      rw [lookupIdByRef, List.find?_cons_of_neg _ (by simp [hne])]
      exact ih hmemtl hnd.2

/-- C7: on a table with unique ids and unique reference ids whose caches
agree with the table, converting a present row's id to its reference id
and back restores the id, and symmetrically for the reference id. -/
theorem claim_C7 (cItr : String → Option String) (cRiti : String → Option Int)
    (table : List IdRow) (t : String) (i : Int) (r : String)
    (hmem : (⟨i, r⟩ : IdRow) ∈ table)
    (hndId : (table.map IdRow.id).Nodup)
    (hndRef : (table.map IdRow.ref).Nodup)
    (hcItr : ∀ i2 v, cItr (itrKey t i2) = some v → lookupRefById table i2 = some v)
    (hcRiti : ∀ r2 v, cRiti (ritiKey t r2) = some v → lookupIdByRef table r2 = some v) :
    (getIdToReferenceId cItr table t i).1 = some r
    ∧ (getReferenceIdToId cRiti table t r).1 = some i
    ∧ ((getIdToReferenceId cItr table t i).1.bind
        fun r2 => (getReferenceIdToId cRiti table t r2).1) = some i
    ∧ ((getReferenceIdToId cRiti table t r).1.bind
        fun i2 => (getIdToReferenceId cItr table t i2).1) = some r := by
  have lr : lookupRefById table i = some r := lookupRefById_of_mem table i r hmem hndId
  have li : lookupIdByRef table r = some i := lookupIdByRef_of_mem table i r hmem hndRef
  have h1 : (getIdToReferenceId cItr table t i).1 = some r := by
    unfold getIdToReferenceId
    cases hc : cItr (itrKey t i) with
    | none => simpa [hc] using lr
    | some v =>
      have hv := hcItr i v hc
      rw [lr] at hv
      injection hv with hv
      simp [hc, hv]
  have h2 : (getReferenceIdToId cRiti table t r).1 = some i := by
    unfold getReferenceIdToId
    cases hc : cRiti (ritiKey t r) with
    | none => simpa [hc] using li
    | some v =>
      have hv := hcRiti r v hc
      rw [li] at hv
      injection hv with hv
      simp [hc, hv]
  exact ⟨h1, h2, by rw [h1]; simpa using h2, by rw [h2]; simpa using h1⟩

/-- Witness for claim C7 on empty caches and a two-row table. -/
theorem claim_C7_witness :
    (⟨1, "a"⟩ : IdRow) ∈ c7Table
    ∧ (c7Table.map IdRow.id).Nodup
    ∧ (c7Table.map IdRow.ref).Nodup
    ∧ ((getIdToReferenceId emptyStrCache c7Table "world" 1).1 = some "a"
      ∧ (getReferenceIdToId emptyIntCache c7Table "world" "a").1 = some 1
      ∧ ((getIdToReferenceId emptyStrCache c7Table "world" 1).1.bind
          fun r2 => (getReferenceIdToId emptyIntCache c7Table "world" r2).1) = some 1
      ∧ ((getReferenceIdToId emptyIntCache c7Table "world" "a").1.bind
          fun i2 => (getIdToReferenceId emptyStrCache c7Table "world" i2).1) = some "a") :=
  ⟨by decide, by decide, by decide,
    claim_C7 emptyStrCache emptyIntCache c7Table "world" 1 "a" (by decide)
      (by decide) (by decide)
      (fun _ _ h => Option.noConfusion h) (fun _ _ h => Option.noConfusion h)⟩

/-- C3: for a parent row and an included has_many or
has_many_and_belongs_to_many relation, the loader collects at most 50
object ids from the join rows sorted by created_at descending, the
relation field becomes the loaded objects' reference ids, and, the object
table's ids being unique, at most 50 objects are attached per parent per
relation. -/
theorem claim_C3 (includedRelations : List String) (rel : RelationModel)
    (joinRows : List JoinRow) (objectTable : List ObjRow) (parentRef : String)
    (hnd : (objectTable.map ObjRow.id).Nodup) :
    (hasManyIncludedObjectIds joinRows parentRef).length ≤ 50
    ∧ (hasManySelectedJoinRows joinRows parentRef).Pairwise createdAtDescRel
    ∧ ∀ refs incl,
        processHasManyRelation includedRelations rel joinRows objectTable parentRef
          = some (refs, incl) →
        incl.length ≤ 50 ∧ refs = incl.map ObjRow.referenceId
          ∧ ∀ o ∈ incl, o.id ∈ hasManyIncludedObjectIds joinRows parentRef := by
  refine ⟨List.length_take_le _ _, List.sorted_insertionSort _ _, ?_⟩
  intro refs incl hp
  unfold processHasManyRelation at hp
  split at hp
  · simp at hp
  split at hp
  swap
  · simp at hp
  simp only [loadHasManyRelation] at hp
  split at hp
  · simp at hp
  simp only [Option.some.injEq, Prod.mk.injEq] at hp
  obtain ⟨hrefs, hincl⟩ := hp
  subst hincl
  refine ⟨?_, hrefs.symm, ?_⟩
  · have hsubl : ((objectTable.filter
        fun o => (hasManyIncludedObjectIds joinRows parentRef).contains o.id).map
          ObjRow.id).Sublist (objectTable.map ObjRow.id) :=
      List.Sublist.map ObjRow.id (List.filter_sublist objectTable)
    have hndf := hnd.sublist hsubl
    have hsub : ((objectTable.filter
        fun o => (hasManyIncludedObjectIds joinRows parentRef).contains o.id).map
          ObjRow.id) ⊆ hasManyIncludedObjectIds joinRows parentRef := by
      intro x hx
      simp only [List.mem_map, List.mem_filter] at hx
      obtain ⟨o, ⟨-, hco⟩, rfl⟩ := hx
      simpa using hco
    have hle := (List.subperm_of_subset hndf hsub).length_le
    rw [List.length_map] at hle
    exact le_trans hle (List.length_take_le _ _)
  · intro o ho
    have := (List.mem_filter.mp ho).2
    simpa using this

/-- Witness for claim C3: an author with two linked posts, both loaded. -/
theorem claim_C3_witness :
    (c3Obj.map ObjRow.id).Nodup
    ∧ ((hasManyIncludedObjectIds c3Join "a1").length ≤ 50
      ∧ (hasManySelectedJoinRows c3Join "a1").Pairwise createdAtDescRel
      ∧ ∀ refs incl,
          processHasManyRelation ["post"] ⟨"has_many", "post", "author"⟩
            c3Join c3Obj "a1" = some (refs, incl) →
          incl.length ≤ 50 ∧ refs = incl.map ObjRow.referenceId
            ∧ ∀ o ∈ incl, o.id ∈ hasManyIncludedObjectIds c3Join "a1") :=
  ⟨by decide,
    claim_C3 ["post"] ⟨"has_many", "post", "author"⟩ c3Join c3Obj "a1" (by decide)⟩

end Daptin
